import Mathlib

/-!
Verification of the Zaku_Cam pipeline core: the archive receiver
(`app/receive_cam_zip.py`) and the inference worker
(`coral_docker/worker.py`), shallowly embedded in Lean.

Modelling conventions:
* Filesystem paths are lists of components (no separator characters inside a
  component); `os.path.realpath` is modelled as lexical `..`/`.` normalisation
  (symbolic links are not modelled).
* File modification times (`st_mtime`, Python floats) are modelled as `Int`:
  the code only compares them and subtracts them from the clock, so only the
  ordered-ring structure matters.
* Fallible operations return `Except`; external effects (CSV rows written,
  helper invocations, files moved/removed) are made explicit in result
  records or in traces of intermediate filesystem states.
-/

namespace ZakuCam

/-! ## Path model (receiver, `receive_cam_zip.py`)

A path is a `List String` of components, rooted at `/`.  `normStep` and
`realpath` model the lexical part of `os.path.realpath`: `.` and empty
components vanish, `..` removes the previous component (and is a no-op at
the root), other components are appended. -/

def normStep (acc : List String) (c : String) : List String :=
  if c = "." ∨ c = "" then acc
  else if c = ".." then acc.dropLast
  else acc ++ [c]

def realpath (p : List String) : List String :=
  p.foldl normStep []

/-- One zip entry: its stored filename, as components, and whether the stored
name is absolute (`os.path.join(dest, name)` discards `dest` for an absolute
`name`). -/
structure ZipMember where
  filename : List String
  isAbs : Bool
deriving DecidableEq, Repr

/-- `os.path.join(dest_dir, member.filename)` on the component model. -/
def joinPath (dest : List String) (m : ZipMember) : List String :=
  if m.isAbs then m.filename else dest ++ m.filename

/-- The zip-slip check from `safe_extract`, for one member:
`target_path.startswith(realpath(dest_dir) + os.sep) or target_path ==
realpath(dest_dir)`; on component lists both disjuncts together are exactly
list-prefix (equality included). -/
def entrySafe (dest : List String) (m : ZipMember) : Bool :=
  (realpath dest).isPrefixOf (realpath (joinPath dest m))

def memberName (m : ZipMember) : String :=
  String.intercalate "/" m.filename

/-- `safe_extract` (receive_cam_zip.py lines 28-36), validation phase: walk
the member list and raise `RuntimeError` at the first member whose resolved
target escapes `dest`.  The subsequent `extractall` is modelled separately in
`process_one_zip`, and only runs when this returns `.ok`. -/
def safe_extract (members : List ZipMember) (dest : List String) : Except String Unit :=
  match members with
  | [] => .ok ()
  | m :: rest =>
      if entrySafe dest m then safe_extract rest dest
      else .error ("Unsafe path in zip: " ++ memberName m)

/-- An archive as `process_one_zip` observes it: its member list and the
result of `zf.testzip()` (`some bad` = the name of the first corrupted entry,
`none` = intact). -/
structure ZipFile where
  members : List ZipMember
  corruptEntry : Option String
deriving DecidableEq, Repr

/-- The filesystem as seen by one `process_one_zip` run:
* `final`: contents of the final batch directory `PROCESSED/<base_name>`
  (`none` = the directory does not exist),
* zipPresent: the archive file still exists in the incoming directory,
* `tmp`: contents of the temporary extraction directory (`none` = absent). -/
structure RecvState where
  final : Option (List String)
  zipPresent : Bool
  tmp : Option (List String)
deriving DecidableEq, Repr

/-- Intermediate states as `extractall` writes the members one at a time into
the temporary directory (index `k` = first `k` members written). -/
def extractStates (s : RecvState) (files : List String) : List RecvState :=
  (List.range (files.length + 1)).map (fun k => { s with tmp := some (files.take k) })

/-- `process_one_zip` (receive_cam_zip.py lines 38-64), as a trace of the
filesystem states after each primitive operation plus the final outcome:
* if the final batch directory already exists: delete the archive, return;
* otherwise create a fresh temporary directory, `testzip`, `safe_extract`
  (both raise, with the context manager removing the temporary directory),
  extract all members into the temporary directory, `shutil.move` it to the
  final path, and only then delete the archive.
`tmpDest` is the canonical path of the temporary extraction target, the
`dest_dir` handed to `safe_extract`. -/
def process_one_zip (z : ZipFile) (tmpDest : List String) (s0 : RecvState) :
    List RecvState × Except String RecvState :=
  if s0.final.isSome then
    let s1 := { s0 with zipPresent := false }
    ([s0, s1], .ok s1)
  else
    let s1 := { s0 with tmp := some [] }
    match z.corruptEntry with
    | some bad =>
        let s2 := { s1 with tmp := none }
        ([s0, s1, s2], .error ("Corrupted entry in zip (" ++ bad ++ ")"))
    | none =>
        match safe_extract z.members tmpDest with
        | .error e =>
            let s2 := { s1 with tmp := none }
            ([s0, s1, s2], .error e)
        | .ok _ =>
            let files := z.members.map memberName
            let s2 := { s1 with tmp := some files }
            let s3 := { s2 with tmp := none, final := some files }
            let s4 := { s3 with zipPresent := false }
            ([s0] ++ extractStates s1 files ++ [s3, s4], .ok s4)

/-! ## Worker: directory listing and readiness detector (`worker.py`) -/

/-- One directory entry as the worker's `Path.iterdir` sees it. -/
structure DirEntry where
  name : String
  isFile : Bool
  mtime : Int
deriving DecidableEq, Repr

/-- A batch directory: its name and its entries. -/
structure BatchDir where
  name : String
  entries : List DirEntry
deriving DecidableEq, Repr

/-- `IMG_EXTS = {".jpg", ".jpeg", ".png"}`. -/
def IMG_EXTS : List String := [".jpg", ".jpeg", ".png"]

/-- Position of the last `.` in a component name, if any. -/
def lastDotPos (cs : List Char) : Option Nat :=
  (cs.enum.filterMap (fun p => if p.2 = '.' then some p.1 else none)).getLast?

/-- `pathlib.PurePath.suffix`: the extension from the last dot on, empty when
the last dot is the leading character or the final one, or there is none. -/
def pathSuffix (name : String) : String :=
  let cs := name.data
  match lastDotPos cs with
  | none => ""
  | some i => if 0 < i ∧ i + 1 < cs.length then String.mk (cs.drop i) else ""

/-- `str.lower`, character by character. -/
def strLower (s : String) : String :=
  String.mk (s.data.map Char.toLower)

/-- The filter in `list_images`: `p.is_file() and p.suffix.lower() in IMG_EXTS`. -/
def isImageEntry (e : DirEntry) : Bool :=
  e.isFile && IMG_EXTS.contains (strLower (pathSuffix e.name))

/-- Lexicographic comparison of names by code point, the order Python
`sorted` applies to the image paths. -/
def charListLe : List Char → List Char → Bool
  | [], _ => true
  | _ :: _, [] => false
  | a :: as, b :: bs => if a = b then charListLe as bs else decide (a < b)

def nameLe (a b : String) : Bool :=
  charListLe a.data b.data

/-- Insertion step for the model of Python `sorted` (by name, ascending). -/
def insertByName (e : DirEntry) : List DirEntry → List DirEntry
  | [] => [e]
  | x :: xs => if nameLe e.name x.name then e :: x :: xs else x :: insertByName e xs

def sortByName (l : List DirEntry) : List DirEntry :=
  l.foldr insertByName []

/-- `list_images` (worker.py lines 59-65): the files with an image extension,
sorted by name. -/
def list_images (folder : BatchDir) : List DirEntry :=
  sortByName (folder.entries.filter isImageEntry)

/-- `newest_image_mtime` (worker.py lines 67-73): running maximum of the image
mtimes, starting from `0.0`. -/
def newest_image_mtime (folder : BatchDir) : Int :=
  (list_images folder).foldl (fun newest p => if p.mtime > newest then p.mtime else newest) 0

/-- The loop body of `choose_latest_ready_folder`, one directory at a time,
threading the running best `(folder?, newest_mtime, num_images)`. -/
def chooseStep (now : Int) (MIN_IMAGES : Nat) (STABLE_SEC : Int)
    (best : Option BatchDir × Int × Nat) (d : BatchDir) : Option BatchDir × Int × Nat :=
  let n := (list_images d).length
  if n < MIN_IMAGES then best
  else
    let m := newest_image_mtime d
    if m = 0 then best
    else if now - m < STABLE_SEC then best
    else if m > best.2.1 then (some d, m, n)
    else best

/-- `choose_latest_ready_folder` (worker.py lines 75-103): among the
subdirectories of the root, pick the one with the latest stable newest-mtime
that has at least `MIN_IMAGES` images; `now` is the `time.time()` value the
function reads when called.  Returns `(folder?, newest_mtime, num_images)`,
`(none, 0, 0)` when nothing qualifies. -/
def choose_latest_ready_folder (now : Int) (MIN_IMAGES : Nat) (STABLE_SEC : Int)
    (subs : List BatchDir) : Option BatchDir × Int × Nat :=
  subs.foldl (chooseStep now MIN_IMAGES STABLE_SEC) (none, 0, 0)

/-- A batch qualifies on a given call when it passes all three skip guards of
the loop body: enough images, a nonzero newest mtime, and stability. -/
def qualifies (now : Int) (MIN_IMAGES : Nat) (STABLE_SEC : Int) (d : BatchDir) : Prop :=
  MIN_IMAGES ≤ (list_images d).length ∧ newest_image_mtime d ≠ 0 ∧
    STABLE_SEC ≤ now - newest_image_mtime d

instance (now : Int) (MIN_IMAGES : Nat) (STABLE_SEC : Int) (d : BatchDir) :
    Decidable (qualifies now MIN_IMAGES STABLE_SEC d) := by
  unfold qualifies; infer_instance

/-- Loop invariant of `choose_latest_ready_folder`: the running best is still
the initial `(None, 0.0, 0)`, or it records a qualifying directory together
with its own newest mtime and image count. -/
def GoodBest (now : Int) (MIN_IMAGES : Nat) (STABLE_SEC : Int)
    (best : Option BatchDir × Int × Nat) : Prop :=
  best = (none, 0, 0) ∨
    ∃ d, best = (some d, newest_image_mtime d, (list_images d).length) ∧
      qualifies now MIN_IMAGES STABLE_SEC d

/-! ## Worker: upload to the Drive web app (`worker.py` lines 136-170) -/

/-- The configuration environment read at the top of `worker.py` that
`upload_image_to_drive` consults. -/
structure UploadCfg where
  uploadEnabled : Bool
  gasUploadUrl : String
  uploadRetries : Nat
deriving DecidableEq, Repr

/-- Observable outcome of one `upload_image_to_drive` call: the returned
boolean, how many times the external helper was invoked, whether the sidecar
mark was created, and whether the exhausted-retries error was logged. -/
structure UploadResult where
  ok : Bool
  invocations : Nat
  markCreated : Bool
  errorLogged : Bool
deriving DecidableEq, Repr

/-- The retry loop `for attempt in range(UPLOAD_RETRIES)`: `helper i` is the
exit code of the `i`-th `subprocess.run` of the upload helper; returns
(succeeded, number of invocations made).  `attempt` is the absolute index of
the next attempt, `fuel` the number of attempts left. -/
def uploadLoop (helper : Nat → Int) (attempt : Nat) : Nat → Bool × Nat
  | 0 => (false, 0)
  | fuel + 1 =>
      if helper attempt = 0 then (true, 1)
      else
        let r := uploadLoop helper (attempt + 1) fuel
        (r.1, r.2 + 1)

/-- `upload_image_to_drive` (worker.py lines 140-170).  `fileExists` models
`img_path.is_file()`, `markExists` models `mark.exists()`.  On a successful
attempt the mark is touched (its best-effort write is modelled as
succeeding; a failure there only changes a warning line). -/
def upload_image_to_drive (cfg : UploadCfg) (fileExists markExists : Bool)
    (helper : Nat → Int) : UploadResult :=
  if !cfg.uploadEnabled then ⟨false, 0, false, false⟩
  else if cfg.gasUploadUrl = "" then ⟨false, 0, false, false⟩
  else if !fileExists then ⟨false, 0, false, false⟩
  else if markExists then ⟨true, 0, false, false⟩
  else
    let r := uploadLoop helper 0 cfg.uploadRetries
    if r.1 then ⟨true, r.2, true, false⟩
    else ⟨false, r.2, false, true⟩

/-! ## Worker: main-loop cycle (`worker.py` lines 193-261) -/

/-- The persisted worker state `{last, last_mtime, result}` of
`worker_state.json`; `none` models an absent key (`state.get` returning
`None`). -/
structure WorkerState where
  last : Option String
  last_mtime : Option Int
  result : Option String
deriving DecidableEq, Repr

/-- One CSV result row (the `utc_time` column and the 4-decimal confidence
formatting are elided: the row's identity, verdict and presence are what the
pipeline's claims talk about; `confidence = none` models the empty string
written for ERROR rows). -/
structure Row where
  folder : String
  image : String
  verdict : String
  confidence : Option Int
deriving DecidableEq, Repr

/-- The classifier boundary: `detect_person_score` for one image, `.error`
when it raises (unreadable file, inference failure), `.ok (human, score)`
otherwise. -/
def Classifier := String → Except Unit (Bool × Int)

/-- The body of the per-image loop of `main` (worker.py lines 216-236): the
accumulator is `(rows, folder_has_person, person_imgs)`; a classification
success appends a `YES`/`NO` row, ors the flag, and records a positive image;
a raising classifier appends an `ERROR` row and continues. -/
def scanStep (folderName : String) (classify : Classifier)
    (acc : List Row × Bool × List String) (img : DirEntry) : List Row × Bool × List String :=
  match classify img.name with
  | .ok (human, score) =>
      (acc.1 ++ [⟨folderName, img.name, if human then "YES" else "NO", some score⟩],
       acc.2.1 || human,
       if human then acc.2.2 ++ [img.name] else acc.2.2)
  | .error _ =>
      (acc.1 ++ [⟨folderName, img.name, "ERROR", none⟩], acc.2.1, acc.2.2)

/-- The per-image accumulation loop of `main` (worker.py lines 216-236):
builds the row list, the `folder_has_person` flag, and the list of
positively-flagged image names, in processing order. -/
def scan_images (folderName : String) (classify : Classifier) (imgs : List DirEntry) :
    List Row × Bool × List String :=
  imgs.foldl (scanStep folderName classify) ([], false, [])

/-- Observable outcome of one iteration of the worker's `while` loop. -/
structure CycleOut where
  skipped : Bool
  rows : List Row
  moved : Bool
  uploadCalls : Nat
  state : WorkerState
deriving DecidableEq, Repr

/-- One iteration of the worker main loop (worker.py lines 198-261): choose a
ready folder; skip it when both its name and newest mtime equal the stored
state; otherwise classify every image, append one row per image, and when any
image is positive move the batch to the events root and call
`upload_image_to_drive` once per positive image; finally record
`{last, last_mtime, result}`.  The filesystem side of move/upload is studied
through `upload_image_to_drive` separately; here the number of upload calls is
the observable. -/
def cycle (now : Int) (MIN_IMAGES : Nat) (STABLE_SEC : Int) (subs : List BatchDir)
    (st : WorkerState) (classify : Classifier) : CycleOut :=
  match choose_latest_ready_folder now MIN_IMAGES STABLE_SEC subs with
  | (none, _, _) => ⟨false, [], false, 0, st⟩
  | (some folder, newest_m, _) =>
      if st.last = some folder.name ∧ st.last_mtime = some newest_m then
        ⟨true, [], false, 0, st⟩
      else
        let r := scan_images folder.name classify (list_images folder)
        if r.2.1 then
          ⟨false, r.1, true, r.2.2.length,
            ⟨some folder.name, some newest_m, some "moved"⟩⟩
        else
          ⟨false, r.1, false, 0,
            ⟨some folder.name, some newest_m, some "no_person"⟩⟩

/-! ## Filesystem-operation trace of the readiness scan

`choose_latest_ready_folder` only reads the filesystem (`iterdir`, `is_file`,
`stat`).  To state that as a theorem rather than by construction, the scan's
operations are listed explicitly and replayed against an arbitrary write
semantics. -/

inductive FsOp where
  | read (p : String)
  | write (p : String)
deriving DecidableEq, Repr

def FsOp.isRead : FsOp → Bool
  | .read _ => true
  | .write _ => false

/-- The filesystem operations one `choose_latest_ready_folder` call performs,
in order: list the root, then, per subdirectory, list it and stat each of its
image files.  Everything is a read. -/
def choose_scan_ops (rootName : String) (subs : List BatchDir) : List FsOp :=
  FsOp.read rootName ::
    subs.flatMap (fun d =>
      FsOp.read d.name :: (list_images d).map (fun p => FsOp.read (d.name ++ "/" ++ p.name)))

/-- Replay one operation against the directory tree; `wsem` is an arbitrary
semantics for writes, reads leave the tree untouched. -/
def applyOp (wsem : List BatchDir → String → List BatchDir) (fs : List BatchDir) :
    FsOp → List BatchDir
  | .read _ => fs
  | .write p => wsem fs p

def applyOps (wsem : List BatchDir → String → List BatchDir) (fs : List BatchDir)
    (ops : List FsOp) : List BatchDir :=
  ops.foldl (applyOp wsem) fs

/-! ## Helpers for stating per-image properties of the scan loop -/

/-- The row the loop body of `main` appends for one image. -/
def rowOf (folderName : String) (classify : Classifier) (img : DirEntry) : Row :=
  match classify img.name with
  | .ok (human, score) => ⟨folderName, img.name, if human then "YES" else "NO", some score⟩
  | .error _ => ⟨folderName, img.name, "ERROR", none⟩

/-- Whether the classifier flags an image as containing a person (a raising
classifier flags nothing). -/
def isPositive (classify : Classifier) (img : DirEntry) : Bool :=
  match classify img.name with
  | .ok (human, _) => human
  | .error _ => false

/-! ## Theorems: archive landing (receiver) -/

theorem safe_extract_error_of_mem (members : List ZipMember) (dest : List String)
    (m : ZipMember) (hm : m ∈ members) (h : entrySafe dest m = false) :
    ∃ e, safe_extract members dest = Except.error e := by
  induction members with
  | nil => cases hm
  | cons a rest ih =>
      rcases List.mem_cons.mp hm with rfl | hmem
      · exact ⟨"Unsafe path in zip: " ++ memberName m, by simp [safe_extract, h]⟩
      · by_cases ha : entrySafe dest a = true
        · obtain ⟨e, he⟩ := ih hmem
          exact ⟨e, by simp [safe_extract, ha, he]⟩
        · exact ⟨"Unsafe path in zip: " ++ memberName a, by simp [safe_extract, ha]⟩

theorem safe_extract_ok_of_all (members : List ZipMember) (dest : List String)
    (h : ∀ m ∈ members, entrySafe dest m = true) :
    safe_extract members dest = Except.ok () := by
  induction members with
  | nil => rfl
  | cons a rest ih =>
      simp [safe_extract, h a (List.mem_cons_self a rest)]
      exact ih (fun m hm => h m (List.mem_cons_of_mem a hm))

/-- C1: an archive containing at least one entry whose resolved target path
lies outside the destination directory makes `safe_extract` raise before any
entry is extracted, and `process_one_zip` on such an archive never writes a
file under the final batch path (its contents stay exactly as they were) and
never puts an entry even into the temporary directory. -/
theorem c1_unsafe_entry_rejected (z : ZipFile) (tmpDest : List String) (s0 : RecvState)
    (m : ZipMember) (hm : m ∈ z.members) (hescape : entrySafe tmpDest m = false)
    (htmp : s0.tmp = none) :
    (∃ e, safe_extract z.members tmpDest = Except.error e) ∧
    ∀ s ∈ (process_one_zip z tmpDest s0).1,
      s.final = s0.final ∧ (s.tmp = none ∨ s.tmp = some []) := by
  obtain ⟨e, he⟩ := safe_extract_error_of_mem z.members tmpDest m hm hescape
  refine ⟨⟨e, he⟩, ?_⟩
  intro s hs
  by_cases hf : s0.final.isSome = true
  · simp only [process_one_zip, hf, if_pos] at hs
    rcases List.mem_pair.mp hs with rfl | rfl <;> simp [htmp]
  · cases hc : z.corruptEntry with
    | some bad =>
        simp only [process_one_zip, hf, Bool.false_eq_true, if_false, hc] at hs
        simp only [List.mem_cons, List.not_mem_nil, or_false] at hs
        rcases hs with rfl | rfl | rfl <;> simp [htmp]
    | none =>
        simp only [process_one_zip, hf, Bool.false_eq_true, if_false, hc, he] at hs
        simp only [List.mem_cons, List.not_mem_nil, or_false] at hs
        rcases hs with rfl | rfl | rfl <;> simp [htmp]

/-- C1 witness: a single-entry archive whose entry climbs out of the
destination with `..`. -/
theorem c1_witness :
    (∃ e, safe_extract [⟨["..", "x.jpg"], false⟩] ["data", "tmp1", "extract"] =
        Except.error e) ∧
    ∀ s ∈ (process_one_zip ⟨[⟨["..", "x.jpg"], false⟩], none⟩ ["data", "tmp1", "extract"]
        ⟨none, true, none⟩).1,
      s.final = none ∧ (s.tmp = none ∨ s.tmp = some []) :=
  c1_unsafe_entry_rejected ⟨[⟨["..", "x.jpg"], false⟩], none⟩ ["data", "tmp1", "extract"]
    ⟨none, true, none⟩ ⟨["..", "x.jpg"], false⟩ (by decide) (by decide) rfl

/-- C2: on a clean, fully safe archive whose batch does not yet exist,
every intermediate filesystem state of `process_one_zip` has the final batch
path either absent or holding the complete extracted file set, the archive is
only ever gone in states where the final path is complete, and the run ends
`.ok` with the batch published and the archive removed. -/
theorem c2_atomic_publish (z : ZipFile) (tmpDest : List String) (s0 : RecvState)
    (hsafe : ∀ m ∈ z.members, entrySafe tmpDest m = true)
    (hco : z.corruptEntry = none)
    (hfinal : s0.final = none) (hzip : s0.zipPresent = true) (htmp : s0.tmp = none) :
    (∀ s ∈ (process_one_zip z tmpDest s0).1,
        (s.final = none ∨ s.final = some (z.members.map memberName)) ∧
        (s.zipPresent = false → s.final = some (z.members.map memberName))) ∧
    (process_one_zip z tmpDest s0).2 =
      Except.ok ⟨some (z.members.map memberName), false, none⟩ := by
  obtain ⟨f0, z0, t0⟩ := s0
  simp only at hfinal hzip htmp
  subst hfinal; subst hzip; subst htmp
  have hok : safe_extract z.members tmpDest = Except.ok () :=
    safe_extract_ok_of_all z.members tmpDest hsafe
  constructor
  · intro s hs
    simp only [process_one_zip, Option.isSome_none, Bool.false_eq_true, if_false, hco, hok,
      List.mem_append, List.mem_cons, List.not_mem_nil, or_false, extractStates,
      List.mem_map, List.mem_range] at hs
    rcases hs with (rfl | ⟨k, _, rfl⟩) | rfl | rfl <;> simp
  · simp [process_one_zip, hco, hok]

/-- C2 witness: a one-image archive extracted from a fresh state. -/
theorem c2_witness :
    (∀ s ∈ (process_one_zip ⟨[⟨["a.jpg"], false⟩], none⟩ ["data", "tmp1", "extract"]
        ⟨none, true, none⟩).1,
        (s.final = none ∨ s.final = some ["a.jpg"]) ∧
        (s.zipPresent = false → s.final = some ["a.jpg"])) ∧
    (process_one_zip ⟨[⟨["a.jpg"], false⟩], none⟩ ["data", "tmp1", "extract"]
        ⟨none, true, none⟩).2 = Except.ok ⟨some ["a.jpg"], false, none⟩ :=
  c2_atomic_publish ⟨[⟨["a.jpg"], false⟩], none⟩ ["data", "tmp1", "extract"]
    ⟨none, true, none⟩ (by decide) rfl rfl rfl rfl

/-- C8: when the batch directory derived from the archive's name already
exists, `process_one_zip` just deletes the archive and returns: the trace is
the two states around that single removal, and the existing batch contents
are untouched in every state. -/
theorem c8_duplicate_absorbed (z : ZipFile) (tmpDest : List String) (s0 : RecvState)
    (c : List String) (h : s0.final = some c) :
    (process_one_zip z tmpDest s0).2 = Except.ok { s0 with zipPresent := false } ∧
    (process_one_zip z tmpDest s0).1 = [s0, { s0 with zipPresent := false }] ∧
    ∀ s ∈ (process_one_zip z tmpDest s0).1, s.final = some c := by
  have hf : s0.final.isSome = true := by simp [h]
  refine ⟨by simp [process_one_zip, hf], by simp [process_one_zip, hf], ?_⟩
  intro s hs
  simp only [process_one_zip, hf, if_pos] at hs
  rcases List.mem_pair.mp hs with rfl | rfl <;> simp [h]

/-- C8 witness: re-delivery of an archive whose batch already holds a file. -/
theorem c8_witness :
    (process_one_zip ⟨[⟨["b.jpg"], false⟩], none⟩ ["data", "tmp1", "extract"]
        ⟨some ["old.jpg"], true, none⟩).2 =
      Except.ok ⟨some ["old.jpg"], false, none⟩ ∧
    (process_one_zip ⟨[⟨["b.jpg"], false⟩], none⟩ ["data", "tmp1", "extract"]
        ⟨some ["old.jpg"], true, none⟩).1 =
      [⟨some ["old.jpg"], true, none⟩, ⟨some ["old.jpg"], false, none⟩] ∧
    ∀ s ∈ (process_one_zip ⟨[⟨["b.jpg"], false⟩], none⟩ ["data", "tmp1", "extract"]
        ⟨some ["old.jpg"], true, none⟩).1, s.final = some ["old.jpg"] :=
  c8_duplicate_absorbed ⟨[⟨["b.jpg"], false⟩], none⟩ ["data", "tmp1", "extract"]
    ⟨some ["old.jpg"], true, none⟩ ["old.jpg"] rfl

/-! ## Theorems: batch readiness detector -/

theorem le_mtime_foldl (l : List DirEntry) (a : Int) :
    a ≤ l.foldl (fun newest p => if p.mtime > newest then p.mtime else newest) a := by
  induction l generalizing a with
  | nil => exact le_refl a
  | cons p rest ih =>
      simp only [List.foldl_cons]
      by_cases hp : p.mtime > a
      · simpa [hp] using le_trans (le_of_lt hp) (ih p.mtime)
      · simpa [hp] using ih a

theorem newest_image_mtime_nonneg (d : BatchDir) : 0 ≤ newest_image_mtime d :=
  le_mtime_foldl (list_images d) 0

theorem goodBest_chooseStep (now : Int) (MIN_IMAGES : Nat) (STABLE_SEC : Int)
    (best : Option BatchDir × Int × Nat) (d : BatchDir)
    (h : GoodBest now MIN_IMAGES STABLE_SEC best) :
    GoodBest now MIN_IMAGES STABLE_SEC (chooseStep now MIN_IMAGES STABLE_SEC best d) := by
  by_cases h1 : (list_images d).length < MIN_IMAGES
  · simpa [chooseStep, h1] using h
  · by_cases h2 : newest_image_mtime d = 0
    · simpa [chooseStep, h1, h2] using h
    · by_cases h3 : now - newest_image_mtime d < STABLE_SEC
      · simpa [chooseStep, h1, h2, h3] using h
      · by_cases h4 : newest_image_mtime d > best.2.1
        · refine Or.inr ⟨d, ?_, Nat.le_of_not_lt h1, h2, le_of_not_lt h3⟩
          simp [chooseStep, h1, h2, h3, h4]
        · simpa [chooseStep, h1, h2, h3, h4] using h

theorem goodBest_foldl (now : Int) (MIN_IMAGES : Nat) (STABLE_SEC : Int)
    (subs : List BatchDir) (best : Option BatchDir × Int × Nat)
    (h : GoodBest now MIN_IMAGES STABLE_SEC best) :
    GoodBest now MIN_IMAGES STABLE_SEC
      (subs.foldl (chooseStep now MIN_IMAGES STABLE_SEC) best) := by
  induction subs generalizing best with
  | nil => exact h
  | cons d rest ih =>
      exact ih _ (goodBest_chooseStep now MIN_IMAGES STABLE_SEC best d h)

/-- C4: the detector never returns a batch that is below the minimum image
count or whose newest image is younger than the stability window; and for a
root holding two stable qualifying batches with newest mtimes T1 < T2 (in
either listing order), it returns the T2 batch with its mtime and count. -/
theorem c4_detector_readiness (now : Int) (MIN_IMAGES : Nat) (STABLE_SEC : Int) :
    (∀ subs d, ((list_images d).length < MIN_IMAGES ∨
        now - newest_image_mtime d < STABLE_SEC) →
      (choose_latest_ready_folder now MIN_IMAGES STABLE_SEC subs).1 ≠ some d) ∧
    (∀ d1 d2, qualifies now MIN_IMAGES STABLE_SEC d1 →
        qualifies now MIN_IMAGES STABLE_SEC d2 →
        newest_image_mtime d1 < newest_image_mtime d2 →
        choose_latest_ready_folder now MIN_IMAGES STABLE_SEC [d1, d2] =
          (some d2, newest_image_mtime d2, (list_images d2).length) ∧
        choose_latest_ready_folder now MIN_IMAGES STABLE_SEC [d2, d1] =
          (some d2, newest_image_mtime d2, (list_images d2).length)) := by
  constructor
  · intro subs d hd hres
    have hg := goodBest_foldl now MIN_IMAGES STABLE_SEC subs (none, 0, 0) (Or.inl rfl)
    unfold choose_latest_ready_folder at hres
    rcases hg with hg | ⟨d', hbest, hq⟩
    · rw [hg] at hres; cases hres
    · rw [hbest] at hres
      obtain rfl : d' = d := by injection hres
      rcases hd with hd | hd
      · exact absurd hq.1 (Nat.not_le_of_lt hd)
      · exact absurd hq.2.2 (not_le_of_lt hd)
  · intro d1 d2 hq1 hq2 h12
    obtain ⟨hn1, hm1, hs1⟩ := hq1
    obtain ⟨hn2, hm2, hs2⟩ := hq2
    have hm1pos : newest_image_mtime d1 > 0 :=
      lt_of_le_of_ne (newest_image_mtime_nonneg d1) (Ne.symm hm1)
    have hm2pos : newest_image_mtime d2 > 0 :=
      lt_of_le_of_ne (newest_image_mtime_nonneg d2) (Ne.symm hm2)
    constructor
    · show chooseStep now MIN_IMAGES STABLE_SEC
          (chooseStep now MIN_IMAGES STABLE_SEC (none, 0, 0) d1) d2 = _
      have h1 : chooseStep now MIN_IMAGES STABLE_SEC (none, 0, 0) d1 =
          (some d1, newest_image_mtime d1, (list_images d1).length) := by
        simp [chooseStep, Nat.not_lt_of_le hn1, hm1, not_lt_of_le hs1, hm1pos]
      rw [h1]
      simp [chooseStep, Nat.not_lt_of_le hn2, hm2, not_lt_of_le hs2, h12]
    · show chooseStep now MIN_IMAGES STABLE_SEC
          (chooseStep now MIN_IMAGES STABLE_SEC (none, 0, 0) d2) d1 = _
      have h2 : chooseStep now MIN_IMAGES STABLE_SEC (none, 0, 0) d2 =
          (some d2, newest_image_mtime d2, (list_images d2).length) := by
        simp [chooseStep, Nat.not_lt_of_le hn2, hm2, not_lt_of_le hs2, hm2pos]
      rw [h2]
      simp [chooseStep, Nat.not_lt_of_le hn1, hm1, not_lt_of_le hs1, not_lt_of_le (le_of_lt h12)]

/-- C4 witness: an empty batch is never returned; among two stable one-image
batches with mtimes 10 < 20 the detector picks the latter. -/
theorem c4_witness :
    (choose_latest_ready_folder 100 1 15 [⟨"poor", []⟩]).1 ≠ some ⟨"poor", []⟩ ∧
    choose_latest_ready_folder 100 1 15
        [⟨"b1", [⟨"a.jpg", true, 10⟩]⟩, ⟨"b2", [⟨"b.jpg", true, 20⟩]⟩] =
      (some ⟨"b2", [⟨"b.jpg", true, 20⟩]⟩, 20, 1) := by
  constructor
  · exact (c4_detector_readiness 100 1 15).1 [⟨"poor", []⟩] ⟨"poor", []⟩ (by decide)
  · exact ((c4_detector_readiness 100 1 15).2 ⟨"b1", [⟨"a.jpg", true, 10⟩]⟩
      ⟨"b2", [⟨"b.jpg", true, 20⟩]⟩ (by decide) (by decide) (by decide)).1

/-- C9 counterexample: the directory tree is fixed, but a call at clock 20
and a later call at clock 25 (the code reads `time.time()` inside the scan)
return different candidates: the batch `new` was still inside the stability
window on the first call and became stable by the second.  So repeated calls
with no changes on disk do not always return the same candidate. -/
theorem c9_counterexample :
    choose_latest_ready_folder 20 1 15
        [⟨"old", [⟨"a.jpg", true, 1⟩]⟩, ⟨"new", [⟨"b.jpg", true, 10⟩]⟩] ≠
      choose_latest_ready_folder 25 1 15
        [⟨"old", [⟨"a.jpg", true, 1⟩]⟩, ⟨"new", [⟨"b.jpg", true, 10⟩]⟩] ∧
    choose_latest_ready_folder 20 1 15
        [⟨"old", [⟨"a.jpg", true, 1⟩]⟩, ⟨"new", [⟨"b.jpg", true, 10⟩]⟩] =
      (some ⟨"old", [⟨"a.jpg", true, 1⟩]⟩, 1, 1) ∧
    choose_latest_ready_folder 25 1 15
        [⟨"old", [⟨"a.jpg", true, 1⟩]⟩, ⟨"new", [⟨"b.jpg", true, 10⟩]⟩] =
      (some ⟨"new", [⟨"b.jpg", true, 10⟩]⟩, 10, 1) := by
  decide

/-- C9 (amended): the scan is side-effect-free and, at an unchanged clock
reading, idempotent: every filesystem operation it performs is a read,
replaying those operations against any write semantics leaves the directory
tree unchanged, and re-running the scan on the replayed tree returns the same
candidate. -/
theorem c9_scan_read_only (wsem : List BatchDir → String → List BatchDir)
    (rootName : String) (now : Int) (MIN_IMAGES : Nat) (STABLE_SEC : Int)
    (subs : List BatchDir) :
    (∀ op ∈ choose_scan_ops rootName subs, op.isRead = true) ∧
    applyOps wsem subs (choose_scan_ops rootName subs) = subs ∧
    choose_latest_ready_folder now MIN_IMAGES STABLE_SEC
        (applyOps wsem subs (choose_scan_ops rootName subs)) =
      choose_latest_ready_folder now MIN_IMAGES STABLE_SEC subs := by
  have hread : ∀ op ∈ choose_scan_ops rootName subs, op.isRead = true := by
    intro op hop
    simp only [choose_scan_ops, List.mem_cons, List.mem_flatMap, List.mem_map] at hop
    rcases hop with rfl | ⟨d, _, rfl | ⟨p, _, rfl⟩⟩ <;> rfl
  have happly : ∀ (ops : List FsOp) (fs : List BatchDir),
      (∀ op ∈ ops, op.isRead = true) → applyOps wsem fs ops = fs := by
    intro ops
    induction ops with
    | nil => intro fs _; rfl
    | cons op rest ih =>
        intro fs h
        have hop := h op (List.mem_cons_self op rest)
        cases op with
        | read p =>
            simpa [applyOps, applyOp] using
              ih fs (fun o ho => h o (List.mem_cons_of_mem _ ho))
        | write p => simp [FsOp.isRead] at hop
  have h2 := happly (choose_scan_ops rootName subs) subs hread
  exact ⟨hread, h2, by rw [h2]⟩

/-- C9 witness: the read-only replay property at a concrete tree and a write
semantics that would be visible if any write were performed. -/
theorem c9_witness :
    (∀ op ∈ choose_scan_ops "data" [⟨"b1", [⟨"a.jpg", true, 10⟩]⟩], op.isRead = true) ∧
    applyOps (fun _ _ => []) [⟨"b1", [⟨"a.jpg", true, 10⟩]⟩]
        (choose_scan_ops "data" [⟨"b1", [⟨"a.jpg", true, 10⟩]⟩]) =
      [⟨"b1", [⟨"a.jpg", true, 10⟩]⟩] ∧
    choose_latest_ready_folder 100 1 15
        (applyOps (fun _ _ => []) [⟨"b1", [⟨"a.jpg", true, 10⟩]⟩]
          (choose_scan_ops "data" [⟨"b1", [⟨"a.jpg", true, 10⟩]⟩])) =
      choose_latest_ready_folder 100 1 15 [⟨"b1", [⟨"a.jpg", true, 10⟩]⟩] :=
  c9_scan_read_only (fun _ _ => []) "data" 100 1 15 [⟨"b1", [⟨"a.jpg", true, 10⟩]⟩]

/-! ## Theorems: selective uploader -/

theorem uploadLoop_all_fail (helper : Nat → Int) (a fuel : Nat)
    (h : ∀ i, i < fuel → helper (a + i) ≠ 0) :
    uploadLoop helper a fuel = (false, fuel) := by
  induction fuel generalizing a with
  | zero => rfl
  | succ n ih =>
      have h0 : helper a ≠ 0 := by simpa using h 0 (Nat.succ_pos n)
      have hr : uploadLoop helper (a + 1) n = (false, n) := by
        refine ih (a + 1) (fun i hi => ?_)
        have : a + 1 + i = a + (i + 1) := by omega
        rw [this]
        exact h (i + 1) (Nat.succ_lt_succ hi)
      simp [uploadLoop, h0, hr]

/-- C5: with uploading enabled, the URL set, the image present and no mark,
a helper that fails every attempt is invoked exactly `UPLOAD_RETRIES` times,
the exhausted-retries error is logged, no mark file is created, and the call
returns failure. -/
theorem c5_upload_retries_exhausted (cfg : UploadCfg) (helper : Nat → Int)
    (hen : cfg.uploadEnabled = true) (hurl : ¬cfg.gasUploadUrl = "")
    (hfail : ∀ i, i < cfg.uploadRetries → helper i ≠ 0) :
    upload_image_to_drive cfg true false helper =
      ⟨false, cfg.uploadRetries, false, true⟩ := by
  have hl : uploadLoop helper 0 cfg.uploadRetries = (false, cfg.uploadRetries) :=
    uploadLoop_all_fail helper 0 cfg.uploadRetries (by simpa using hfail)
  simp [upload_image_to_drive, hen, hurl, hl]

/-- C5 witness: retry limit 3, helper always exiting 1. -/
theorem c5_witness :
    upload_image_to_drive ⟨true, "https://gas.example/exec", 3⟩ true false (fun _ => 1) =
      ⟨false, 3, false, true⟩ :=
  c5_upload_retries_exhausted ⟨true, "https://gas.example/exec", 3⟩ (fun _ => 1) rfl
    (by decide) (fun _ _ => by simp)

/-- C6: with uploading enabled and configured and the image present, an
existing sidecar mark makes `upload_image_to_drive` return success with zero
helper invocations (and it neither rewrites the mark nor logs an error). -/
theorem c6_mark_short_circuits (cfg : UploadCfg) (helper : Nat → Int)
    (hen : cfg.uploadEnabled = true) (hurl : ¬cfg.gasUploadUrl = "") :
    upload_image_to_drive cfg true true helper = ⟨true, 0, false, false⟩ := by
  simp [upload_image_to_drive, hen, hurl]

/-- C6 witness: the helper would fail if it ran; it is never invoked. -/
theorem c6_witness :
    upload_image_to_drive ⟨true, "https://gas.example/exec", 3⟩ true true (fun _ => 1) =
      ⟨true, 0, false, false⟩ :=
  c6_mark_short_circuits ⟨true, "https://gas.example/exec", 3⟩ (fun _ => 1) rfl (by decide)

/-- C10: when uploading is disabled, or the URL is empty, or the image file
does not exist, `upload_image_to_drive` returns failure with zero helper
invocations and no mark creation — for every mark state, so with uploading
disabled even an already-marked image reports failure. -/
theorem c10_guards_precede_mark (cfg : UploadCfg) (fileExists markExists : Bool)
    (helper : Nat → Int)
    (h : cfg.uploadEnabled = false ∨ cfg.gasUploadUrl = "" ∨ fileExists = false) :
    upload_image_to_drive cfg fileExists markExists helper = ⟨false, 0, false, false⟩ := by
  cases hen : cfg.uploadEnabled with
  | false => simp [upload_image_to_drive, hen]
  | true =>
      rcases h with h | h | h
      · rw [hen] at h; cases h
      · simp [upload_image_to_drive, hen, h]
      · by_cases hu : cfg.gasUploadUrl = ""
        · simp [upload_image_to_drive, hen, hu]
        · subst h; simp [upload_image_to_drive, hen, hu]

/-- C10 witness: uploading disabled, mark already present, helper would
succeed — the call still reports failure with zero invocations. -/
theorem c10_witness :
    upload_image_to_drive ⟨false, "https://gas.example/exec", 3⟩ true true (fun _ => 0) =
      ⟨false, 0, false, false⟩ :=
  c10_guards_precede_mark ⟨false, "https://gas.example/exec", 3⟩ true true (fun _ => 0)
    (Or.inl rfl)

/-! ## Theorems: worker main-loop cycle -/

theorem scanStep_foldl (folderName : String) (classify : Classifier)
    (imgs : List DirEntry) (r0 : List Row) (b0 : Bool) (p0 : List String) :
    imgs.foldl (scanStep folderName classify) (r0, b0, p0) =
      (r0 ++ imgs.map (rowOf folderName classify),
       b0 || imgs.any (isPositive classify),
       p0 ++ (imgs.filter (isPositive classify)).map DirEntry.name) := by
  induction imgs generalizing r0 b0 p0 with
  | nil => simp
  | cons img rest ih =>
      simp only [List.foldl_cons, List.map_cons, List.any_cons, List.filter_cons]
      cases hc : classify img.name with
      | error e =>
          simp only [scanStep, hc]
          rw [ih]
          simp [rowOf, isPositive, hc]
      | ok v =>
          obtain ⟨human, score⟩ := v
          cases human with
          | false =>
              simp only [scanStep, hc]
              rw [ih]
              simp [rowOf, isPositive, hc]
          | true =>
              simp only [scanStep, hc]
              rw [ih]
              simp [rowOf, isPositive, hc]

theorem scan_images_eq (folderName : String) (classify : Classifier)
    (imgs : List DirEntry) :
    scan_images folderName classify imgs =
      (imgs.map (rowOf folderName classify),
       imgs.any (isPositive classify),
       (imgs.filter (isPositive classify)).map DirEntry.name) := by
  simpa using scanStep_foldl folderName classify imgs [] false []

/-- C3: when the detector returns a ready batch, the main loop skips it
exactly when both the stored name and the stored newest-mtime fingerprint
equal the batch's; and on a match the whole cycle is a no-op: no rows
appended, no move, no upload calls, the state untouched. -/
theorem c3_skip_iff_state_matches (now : Int) (MIN_IMAGES : Nat) (STABLE_SEC : Int)
    (subs : List BatchDir) (st : WorkerState) (classify : Classifier)
    (f : BatchDir) (m : Int) (n : Nat)
    (hchoose : choose_latest_ready_folder now MIN_IMAGES STABLE_SEC subs = (some f, m, n)) :
    ((cycle now MIN_IMAGES STABLE_SEC subs st classify).skipped = true ↔
      (st.last = some f.name ∧ st.last_mtime = some m)) ∧
    ((st.last = some f.name ∧ st.last_mtime = some m) →
      cycle now MIN_IMAGES STABLE_SEC subs st classify = ⟨true, [], false, 0, st⟩) := by
  unfold cycle
  rw [hchoose]
  by_cases h : st.last = some f.name ∧ st.last_mtime = some m
  · simp [h]
  · refine ⟨?_, fun hc => absurd hc h⟩
    simp only [h, if_false]
    constructor
    · intro hsk
      exfalso
      rcases hbr : (scan_images f.name classify (list_images f)) with ⟨rows, has, persons⟩
      rw [hbr] at hsk
      cases has <;> simp at hsk
    · intro hc
      exact hc.elim

/-- C3 witness: the stored state already names the batch and its
fingerprint; the cycle is skipped and is a no-op. -/
theorem c3_witness :
    ((cycle 100 1 15 [⟨"b1", [⟨"a.jpg", true, 10⟩]⟩]
        ⟨some "b1", some 10, some "moved"⟩ (fun _ => Except.ok (false, 0))).skipped = true ↔
      ((⟨some "b1", some 10, some "moved"⟩ : WorkerState).last = some "b1" ∧
       (⟨some "b1", some 10, some "moved"⟩ : WorkerState).last_mtime = some 10)) ∧
    (((⟨some "b1", some 10, some "moved"⟩ : WorkerState).last = some "b1" ∧
      (⟨some "b1", some 10, some "moved"⟩ : WorkerState).last_mtime = some 10) →
      cycle 100 1 15 [⟨"b1", [⟨"a.jpg", true, 10⟩]⟩]
          ⟨some "b1", some 10, some "moved"⟩ (fun _ => Except.ok (false, 0)) =
        ⟨true, [], false, 0, ⟨some "b1", some 10, some "moved"⟩⟩) :=
  c3_skip_iff_state_matches 100 1 15 [⟨"b1", [⟨"a.jpg", true, 10⟩]⟩]
    ⟨some "b1", some 10, some "moved"⟩ (fun _ => Except.ok (false, 0))
    ⟨"b1", [⟨"a.jpg", true, 10⟩]⟩ 10 1 (by decide)

/-- C7: a processed batch of N images yields exactly N rows; an image on
which the classifier raises yields the `ERROR` row at its position (and
processing continues); and a batch with no positive detection is not moved
and triggers zero upload calls. -/
theorem c7_rows_per_image (now : Int) (MIN_IMAGES : Nat) (STABLE_SEC : Int)
    (subs : List BatchDir) (st : WorkerState) (classify : Classifier)
    (f : BatchDir) (m : Int) (n : Nat)
    (hchoose : choose_latest_ready_folder now MIN_IMAGES STABLE_SEC subs = (some f, m, n))
    (hns : ¬(st.last = some f.name ∧ st.last_mtime = some m)) :
    (cycle now MIN_IMAGES STABLE_SEC subs st classify).rows.length =
      (list_images f).length ∧
    (∀ i img, (list_images f).get? i = some img → classify img.name = Except.error () →
      (cycle now MIN_IMAGES STABLE_SEC subs st classify).rows.get? i =
        some ⟨f.name, img.name, "ERROR", none⟩) ∧
    ((∀ img ∈ list_images f, isPositive classify img = false) →
      (cycle now MIN_IMAGES STABLE_SEC subs st classify).moved = false ∧
      (cycle now MIN_IMAGES STABLE_SEC subs st classify).uploadCalls = 0) := by
  have hrows : (cycle now MIN_IMAGES STABLE_SEC subs st classify).rows =
      (list_images f).map (rowOf f.name classify) := by
    unfold cycle
    rw [hchoose]
    simp only [hns, if_false, scan_images_eq]
    cases (list_images f).any (isPositive classify) <;> rfl
  refine ⟨by rw [hrows]; exact List.length_map _ _, ?_, ?_⟩
  · intro i img hi hcl
    rw [hrows, List.get?_map, hi]
    simp [rowOf, hcl]
  · intro hnone
    have hany : (list_images f).any (isPositive classify) = false := by
      simp only [List.any_eq_false]
      intro img himg
      simp [hnone img himg]
    unfold cycle
    rw [hchoose]
    simp only [hns, if_false, scan_images_eq, hany]
    exact ⟨rfl, rfl⟩

/-- C7 witness: a two-image batch where the classifier raises on one image
and reports no person on the other: two rows, the `ERROR` row in place, no
move, no uploads. -/
theorem c7_witness :
    (cycle 100 1 15 [⟨"b1", [⟨"a.jpg", true, 10⟩, ⟨"b.jpg", true, 5⟩]⟩]
        ⟨none, none, none⟩
        (fun s => if s = "a.jpg" then Except.error () else Except.ok (false, 2))).rows.length =
      (list_images ⟨"b1", [⟨"a.jpg", true, 10⟩, ⟨"b.jpg", true, 5⟩]⟩).length ∧
    (∀ i img,
      (list_images ⟨"b1", [⟨"a.jpg", true, 10⟩, ⟨"b.jpg", true, 5⟩]⟩).get? i = some img →
      (if img.name = "a.jpg" then Except.error () else Except.ok (false, 2)) =
        (Except.error () : Except Unit (Bool × Int)) →
      (cycle 100 1 15 [⟨"b1", [⟨"a.jpg", true, 10⟩, ⟨"b.jpg", true, 5⟩]⟩]
          ⟨none, none, none⟩
          (fun s => if s = "a.jpg" then Except.error () else Except.ok (false, 2))).rows.get? i =
        some ⟨"b1", img.name, "ERROR", none⟩) ∧
    ((∀ img ∈ list_images ⟨"b1", [⟨"a.jpg", true, 10⟩, ⟨"b.jpg", true, 5⟩]⟩,
        isPositive (fun s => if s = "a.jpg" then Except.error () else Except.ok (false, 2))
          img = false) →
      (cycle 100 1 15 [⟨"b1", [⟨"a.jpg", true, 10⟩, ⟨"b.jpg", true, 5⟩]⟩]
          ⟨none, none, none⟩
          (fun s => if s = "a.jpg" then Except.error () else Except.ok (false, 2))).moved =
        false ∧
      (cycle 100 1 15 [⟨"b1", [⟨"a.jpg", true, 10⟩, ⟨"b.jpg", true, 5⟩]⟩]
          ⟨none, none, none⟩
          (fun s => if s = "a.jpg" then Except.error () else Except.ok (false, 2))).uploadCalls =
        0) :=
  c7_rows_per_image 100 1 15 [⟨"b1", [⟨"a.jpg", true, 10⟩, ⟨"b.jpg", true, 5⟩]⟩]
    ⟨none, none, none⟩
    (fun s => if s = "a.jpg" then Except.error () else Except.ok (false, 2))
    ⟨"b1", [⟨"a.jpg", true, 10⟩, ⟨"b.jpg", true, 5⟩]⟩ 10 2 (by decide) (by decide)

end ZakuCam
